import Mathlib

/-
Verification of the fortest dependency-aware test runner.

This file gives a shallow embedding of the Python sources under
`fortest/fortest/` (module_dependency_resolver.py, build_system_detector.py,
test_code_generator.py, fortran_test_runner.py) and proves or refutes the
frozen specification claims about them.

Modelling conventions:
 - File-system paths are lists of components, root-first (`FsPath`); the
   paths handed to the embedded functions are taken to be already absolute
   and canonical, so `Path.resolve()` is the identity.
 - The file system is a structure of pure functions (`FS`): file/dir
   membership, directory listings in iteration order, and file reads where
   `none` models an unreadable or undecodable file (`OSError` or
   `UnicodeDecodeError` on `open`/`read`).
 - The regular expressions used by the sources are embedded as explicit
   character-list matchers with the exact semantics of the patterns
   (including multiline anchors and `\s` runs that may cross newlines),
   restricted to ASCII text.
 - Subprocess execution is abstracted by an `ExecOutcome` input: the spawned
   process either completed with captured output and exit code, timed out
   (subprocess.TimeoutExpired after 30 s), or failed to spawn.
-/

namespace Fortest

/-- Python `\s` on ASCII text: space, tab, newline, carriage return,
vertical tab, form feed. -/
def isSpaceChar (c : Char) : Bool :=
  c = ' ' || c = '\t' || c = '\n' || c = '\r' || c = '\x0b' || c = '\x0c'

/-- Python `\w` on ASCII text: letters, digits, underscore. -/
def isWordChar (c : Char) : Bool :=
  ('a' ≤ c && c ≤ 'z') || ('A' ≤ c && c ≤ 'Z') || ('0' ≤ c && c ≤ '9') || c = '_'

/-- Models Python `str.lower()` on ASCII text: per-character lowering. -/
def strLower (s : String) : String := String.mk (s.data.map Char.toLower)

/-- Models Python `str.upper()` on ASCII text: per-character uppering. -/
def strUpper (s : String) : String := String.mk (s.data.map Char.toUpper)

/-- `needle` is a prefix of `hay` (character lists). -/
def substrAt : List Char → List Char → Bool
  | [], _ => true
  | _ :: _, [] => false
  | n :: ns, h :: hs => n = h && substrAt ns hs

/-- Python's `needle in hay` on strings: contiguous-substring containment. -/
def hasSubstr : List Char → List Char → Bool
  | [], needle => needle.isEmpty
  | h :: hs, needle => substrAt needle (h :: hs) || hasSubstr hs needle

/-- Character-level form of `re.sub(r"!.*$", "", content, flags=re.MULTILINE)`
used by all three scanners: on each line, everything from the first `!` to the
end of the line is removed.  The boolean tracks whether the scan is currently
inside a comment (reset at each newline). -/
def stripCommentsGo : List Char → Bool → List Char
  | [], _ => []
  | c :: cs, inComment =>
    if c = '\n' then c :: stripCommentsGo cs false
    else if inComment then stripCommentsGo cs true
    else if c = '!' then stripCommentsGo cs true
    else c :: stripCommentsGo cs false

/-- `re.sub(r"!.*$", "", content, flags=re.MULTILINE)`. -/
def stripComments (s : String) : String := String.mk (stripCommentsGo s.data false)

/-- Case-insensitive literal matcher: `matchLit pat cs` consumes `pat`
(given in lowercase) from the front of `cs`, comparing lowered characters,
and returns the rest on success.  Models a literal token of a Python regex
compiled with `re.IGNORECASE`. -/
def matchLit : List Char → List Char → Option (List Char)
  | [], cs => some cs
  | _ :: _, [] => none
  | p :: ps, c :: cs => if c.toLower = p then matchLit ps cs else none

/-- One attempt of the use-statement pattern
`^\s*use\s*(?:,\s*intrinsic\s*)?(?:::\s*)?(\w+)` (IGNORECASE | MULTILINE)
from module_dependency_resolver.py, starting at a `^` position.  Returns the
captured group (original case) and the remaining text after the match. -/
def tryUseMatch (cs : List Char) : Option (String × List Char) :=
  let cs1 := cs.dropWhile isSpaceChar
  match matchLit ['u', 's', 'e'] cs1 with
  | none => none
  | some cs2 =>
    let cs3 := cs2.dropWhile isSpaceChar
    let cs4 :=
      match cs3 with
      | ',' :: r =>
        match matchLit "intrinsic".data (r.dropWhile isSpaceChar) with
        | some r3 => r3.dropWhile isSpaceChar
        | none => cs3
      | _ => cs3
    let cs5 :=
      match cs4 with
      | ':' :: ':' :: r => r.dropWhile isSpaceChar
      | _ => cs4
    let w := cs5.takeWhile isWordChar
    if w.isEmpty then none else some (String.mk w, cs5.drop w.length)

/-- One attempt of the test-subroutine pattern
`(?mi)^\s*subroutine\s+(test_\w+)\b` from test_code_generator.py, starting at
a `^` position.  The closing `end subroutine <name>` line cannot match
because the line must begin (after whitespace) with the `subroutine`
keyword itself. -/
def trySubMatch (cs : List Char) : Option (String × List Char) :=
  let cs1 := cs.dropWhile isSpaceChar
  match matchLit "subroutine".data cs1 with
  | none => none
  | some cs2 =>
    match cs2 with
    | [] => none
    | c :: _ =>
      if isSpaceChar c then
        let cs3 := cs2.dropWhile isSpaceChar
        match matchLit "test_".data cs3 with
        | none => none
        | some cs4 =>
          let w := cs4.takeWhile isWordChar
          if w.isEmpty then none
          else some (String.mk (cs3.take 5 ++ w), cs4.drop w.length)
      else none

/-- `re.findall` driver for a `^`-anchored pattern: attempts `tryFn` at every
line-start position (position 0 or just after a newline), continuing after
the end of each non-overlapping match, exactly as Python's scanner does.
The fuel is initialised to the text length; it dominates the scan because
every step consumes at least one character. -/
def scanMatches (tryFn : List Char → Option (String × List Char)) :
    Nat → List Char → Bool → List String
  | 0, _, _ => []
  | _ + 1, [], _ => []
  | fuel + 1, c :: rest, atLineStart =>
    if atLineStart then
      match tryFn (c :: rest) with
      | some (w, rest2) => w :: scanMatches tryFn fuel rest2 false
      | none => scanMatches tryFn fuel rest (c = '\n')
    else
      scanMatches tryFn fuel rest (c = '\n')

/-- All raw captures of the use-statement pattern over the comment-stripped
text, in match order (original case). -/
def rawUseMatches (content : String) : List String :=
  let t := (stripComments content).data
  scanMatches tryUseMatch t.length t true

/-- All raw captures of the test-subroutine pattern over the comment-stripped
text, in match order (original case). -/
def rawSubMatches (content : String) : List String :=
  let t := (stripComments content).data
  scanMatches trySubMatch t.length t true

/-- The lower-case-and-deduplicate loop shared by
`extract_use_statements` and `extract_test_subroutines`:
`seen` is the set of already-emitted names, `acc` the output so far;
each match is lowered and appended only on its first occurrence. -/
def dedupLowerLoop (seen acc : List String) : List String → List String
  | [] => acc
  | m :: ms =>
    let nm := strLower m
    if nm ∈ seen then dedupLowerLoop seen acc ms
    else dedupLowerLoop (nm :: seen) (acc ++ [nm]) ms

/-- `ModuleDependencyResolver.extract_use_statements`, text part: the list of
module names used in the text (lowercase, unique, first-occurrence order). -/
def extract_use_statements_text (content : String) : List String :=
  dedupLowerLoop [] [] (rawUseMatches content)

/-- `TestCodeGenerator.extract_test_subroutines`, text part: the list of
test-subroutine names declared in the text (lowercase, unique,
first-occurrence order). -/
def extract_test_subroutines_text (content : String) : List String :=
  dedupLowerLoop [] [] (rawSubMatches content)

/-- One attempt of `\bmodule\s+(\w+)` (IGNORECASE) at a given position,
assuming the word-boundary condition was checked by the caller. -/
def tryModuleMatch (cs : List Char) : Option String :=
  match matchLit "module".data cs with
  | none => none
  | some cs2 =>
    match cs2 with
    | [] => none
    | c :: _ =>
      if isSpaceChar c then
        let w := (cs2.dropWhile isSpaceChar).takeWhile isWordChar
        if w.isEmpty then none else some (String.mk w)
      else none

/-- `re.search(r"\bmodule\s+(\w+)", content, re.IGNORECASE)`: scan every
position whose preceding character is not a word character (the `\b`) and
return the first capture. -/
def findModuleNameGo : List Char → Bool → Option String
  | [], _ => none
  | c :: rest, prevWord =>
    if prevWord then findModuleNameGo rest (isWordChar c)
    else
      match tryModuleMatch (c :: rest) with
      | some w => some w
      | none => findModuleNameGo rest (isWordChar c)

/-- `ModuleDependencyResolver.extract_module_name`, text part: the first
`module <identifier>` declaration in the comment-stripped text, lowered. -/
def extract_module_name_text (content : String) : Option String :=
  match findModuleNameGo (stripComments content).data false with
  | some w => some (strLower w)
  | none => none

/-- An absolute, canonical filesystem path, root-first list of components.
`[]` is the filesystem root; `Path.resolve()` is modelled as the identity
because all paths handled here are already absolute and canonical. -/
abbrev FsPath := List String

/-- Pure-function model of the filesystem the Python code queries.
`read p = none` models a file whose `open`/`read` raises `OSError` or
`UnicodeDecodeError`; `children` lists a directory's entry names in
`iterdir` order (an unreadable directory simply lists nothing). -/
structure FS where
  isFile : FsPath → Bool
  isDir : FsPath → Bool
  children : FsPath → List String
  read : FsPath → Option String
  cwd : FsPath
  pkgDir : FsPath

/-- `Path.exists()`: the path is a file or a directory. -/
def FS.pexists (fs : FS) (p : FsPath) : Bool := fs.isFile p || fs.isDir p

/-- `ModuleDependencyResolver.INTRINSIC_MODULES`. -/
def INTRINSIC_MODULES : List String :=
  ["iso_fortran_env", "iso_c_binding", "ieee_arithmetic", "ieee_exceptions", "ieee_features"]

/-- `ModuleDependencyResolver.ASSERTION_MODULE`. -/
def ASSERTION_MODULE : String := "fortest_assertions"

/-- `ModuleDependencyResolver.TARGET_SUBDIRS`, each entry split into path
components (`"fortran/src"` is a nested relative path). -/
def TARGET_SUBDIRS : List (List String) :=
  [["src"], ["app"], ["lib"], ["examples"], ["fortran", "src"]]

/-- `ModuleDependencyResolver.SEARCH_DEPTH_MAX`. -/
def SEARCH_DEPTH_MAX : Nat := 4

/-- Python `Path.name`: the final path component (empty for the root). -/
def pathName (p : FsPath) : String := p.getLast!

/-- Python `str.startswith`: character-level prefix test. -/
def strStartsWith (s pre : String) : Bool := substrAt pre.data s.data

/-- Python `str.endswith`: character-level suffix test. -/
def strEndsWith (s suf : String) : Bool := substrAt suf.data.reverse s.data.reverse

/-- Python `path.suffix == ".f90"`: the name ends in `.f90` and is not the
bare hidden name `.f90` (whose pathlib suffix is empty). -/
def isF90Name (name : String) : Bool := strEndsWith name ".f90" && name ≠ ".f90"

/-- `ModuleDependencyResolver.extract_use_statements` (file level): an
unreadable or undecodable file yields `[]`. -/
def extract_use_statements (fs : FS) (file_path : FsPath) : List String :=
  match fs.read file_path with
  | none => []
  | some content => extract_use_statements_text content

/-- `ModuleDependencyResolver.extract_module_name` (file level): an
unreadable or undecodable file yields `none`. -/
def extract_module_name (fs : FS) (file_path : FsPath) : Option String :=
  match fs.read file_path with
  | none => none
  | some content => extract_module_name_text content

/-- `ScanError.readFailure` stands for the `OSError` or `UnicodeDecodeError`
that `open`/`read` raises on an unreadable or undecodable file. -/
inductive ScanError
  | readFailure
deriving DecidableEq

/-- `TestCodeGenerator.extract_test_subroutines` (file level).  Unlike the
two resolver scanners, the source has no `try/except` around `open`/`read`,
so a read failure propagates out of the call; this is modelled by
`Except.error`. -/
def extract_test_subroutines (fs : FS) (test_file : FsPath) :
    Except ScanError (List String) :=
  match fs.read test_file with
  | none => Except.error ScanError.readFailure
  | some content => Except.ok (extract_test_subroutines_text content)

/-- The body of `find_fortran_files_recursive`'s `scan_dir`: files with
suffix `.f90` are collected, non-hidden subdirectories are descended into,
in `iterdir` order.  `scan_dir` is entered at depths `0 .. max_depth`, so the
fuel is `max_depth + 1`. -/
def findF90Go (fs : FS) : Nat → FsPath → List FsPath
  | 0, _ => []
  | fuel + 1, dir =>
    if fs.isDir dir then
      (fs.children dir).flatMap fun nm =>
        let p := dir ++ [nm]
        if fs.isFile p && isF90Name nm then [p]
        else if fs.isDir p && !strStartsWith nm "." then findF90Go fs fuel p
        else []
    else []

/-- `ModuleDependencyResolver.find_fortran_files_recursive` with its default
`max_depth = 3`. -/
def find_fortran_files_recursive (fs : FS) (directory : FsPath) (max_depth : Nat := 3) :
    List FsPath :=
  findF90Go fs (max_depth + 1) directory

/-- `ModuleDependencyResolver.find_module_file_by_name`: scan each search
directory's `.f90` files (depth 3) for one whose declared module name equals
the lowered target; if none matches, search the working directory more
broadly (depth 6) as a fallback. -/
def find_module_file_by_name (fs : FS) (module_name : String) (search_dirs : List FsPath) :
    Option FsPath :=
  let target := strLower module_name
  match search_dirs.findSome? fun d =>
      (find_fortran_files_recursive fs d).find? fun f =>
        extract_module_name fs f = some target with
  | some f => some f
  | none =>
    (find_fortran_files_recursive fs fs.cwd 6).find? fun f =>
      extract_module_name fs f = some target

/-- Generic order-preserving de-duplication loop (`seen` set plus append),
as in `_build_search_directories`. -/
def dedupKeepFirst (seen acc : List FsPath) : List FsPath → List FsPath
  | [] => acc
  | d :: ds =>
    if d ∈ seen then dedupKeepFirst seen acc ds
    else dedupKeepFirst (d :: seen) (acc ++ [d]) ds

/-- The upward loop of `_build_search_directories`: at each of up to
`SEARCH_DEPTH_MAX` ancestor levels, append the existing conventional
subdirectories and then the ancestor itself; stop at the root. -/
def buildSearchDirsGo (fs : FS) : Nat → FsPath → List FsPath → List FsPath
  | 0, _, acc => acc
  | fuel + 1, current, acc =>
    let acc := acc ++
      ((TARGET_SUBDIRS.filter fun s =>
          fs.pexists (current ++ s) && fs.isDir (current ++ s)).map
        fun s => current ++ s) ++ [current]
    if current = [] then acc
    else buildSearchDirsGo fs fuel current.dropLast acc

/-- `ModuleDependencyResolver._build_search_directories`. -/
def build_search_directories (fs : FS) (test_file : FsPath) : List FsPath :=
  dedupKeepFirst [] [] (buildSearchDirsGo fs SEARCH_DEPTH_MAX test_file.dropLast [])

/-- `ModuleDependencyResolver._find_assertion_module`: first `.f90` file
(depth 2) named `module_fortest_assertions.f90` in the search directories,
falling back to the bundled copy next to the installed package. -/
def find_assertion_module (fs : FS) (search_dirs : List FsPath) : Option FsPath :=
  match search_dirs.findSome? fun d =>
      (find_fortran_files_recursive fs d 2).find? fun f =>
        pathName f = "module_fortest_assertions.f90" with
  | some f => some f
  | none =>
    let bundled := fs.pkgDir ++ ["module_fortest_assertions.f90"]
    if fs.pexists bundled then some bundled else none

/-- The loop of `_find_user_modules`: skip intrinsic modules and the
assertion module, resolve each remaining name to a file, and append it
unless it is the test file itself or already present. -/
def findUserModulesGo (fs : FS) (search_dirs : List FsPath) (test_file : FsPath)
    (acc : List FsPath) : List String → List FsPath
  | [] => acc
  | module_name :: rest =>
    if module_name ∈ INTRINSIC_MODULES ∨ module_name = ASSERTION_MODULE then
      findUserModulesGo fs search_dirs test_file acc rest
    else
      match find_module_file_by_name fs module_name search_dirs with
      | none => findUserModulesGo fs search_dirs test_file acc rest
      | some module_file =>
        if module_file = test_file ∨ module_file ∈ acc then
          findUserModulesGo fs search_dirs test_file acc rest
        else
          findUserModulesGo fs search_dirs test_file (acc ++ [module_file]) rest

/-- `ModuleDependencyResolver._find_user_modules`. -/
def find_user_modules (fs : FS) (used_modules : List String) (search_dirs : List FsPath)
    (test_file : FsPath) : List FsPath :=
  findUserModulesGo fs search_dirs test_file [] used_modules

/-- The assertion-module phase of `find_module_files`: the assertion file is
appended (first) exactly when assertions are requested, the test file
references the assertion module, and an assertion file is located. -/
def assertion_part (fs : FS) (used_modules : List String) (search_dirs : List FsPath)
    (include_assertions : Bool) : List FsPath :=
  if include_assertions = true ∧ ASSERTION_MODULE ∈ used_modules then
    match find_assertion_module fs search_dirs with
    | some assertion_module => [assertion_module]
    | none => []
  else []

/-- `ModuleDependencyResolver.find_module_files`: the assertion file (when
requested, referenced and found) followed by the resolved user-module files
of the names used *directly* by the test file. -/
def find_module_files (fs : FS) (test_file : FsPath) (include_assertions : Bool := true) :
    List FsPath :=
  let used_modules := extract_use_statements fs test_file
  let search_dirs := build_search_directories fs test_file
  assertion_part fs used_modules search_dirs include_assertions ++
    find_user_modules fs used_modules search_dirs test_file

/-- `BuildSystemInfo` from build_system_detector.py. -/
structure BuildSystemInfo where
  build_type : String
  project_dir : FsPath
deriving DecidableEq

/-- The `while current != current.parent` loop of `BuildSystemDetector.detect`:
check `fpm.toml`, then `CMakeLists.txt`, then `Makefile` in the current
directory; on no marker, move to the parent.  The loop guard means the walk
stops when `current` *is* the root, so the root directory itself is never
examined.  Fuel is the path length, which bounds the walk exactly. -/
def detectGo (fs : FS) : Nat → FsPath → Option BuildSystemInfo
  | 0, _ => none
  | fuel + 1, current =>
    if current = [] then none
    else if fs.pexists (current ++ ["fpm.toml"]) then some ⟨"fpm", current⟩
    else if fs.pexists (current ++ ["CMakeLists.txt"]) then some ⟨"cmake", current⟩
    else if fs.pexists (current ++ ["Makefile"]) then some ⟨"make", current⟩
    else detectGo fs fuel current.dropLast

/-- `BuildSystemDetector.detect`: walk upward from the test file's
containing directory. -/
def detect (fs : FS) (test_file : FsPath) : Option BuildSystemInfo :=
  detectGo fs test_file.dropLast.length test_file.dropLast

/-- Modelled from the spec ("§4.2 BuildSystemDetector"): the per-directory
marker choice, FPM before CMake before Make. -/
def marker_in (fs : FS) (d : FsPath) : Option BuildSystemInfo :=
  if fs.pexists (d ++ ["fpm.toml"]) then some ⟨"fpm", d⟩
  else if fs.pexists (d ++ ["CMakeLists.txt"]) then some ⟨"cmake", d⟩
  else if fs.pexists (d ++ ["Makefile"]) then some ⟨"make", d⟩
  else none

/-- The chain of directories the upward walk visits, outermost first,
ending just above the filesystem root (the root itself is where the walk
stops). -/
def ancestorChain : Nat → FsPath → List FsPath
  | 0, _ => []
  | fuel + 1, d => if d = [] then [] else d :: ancestorChain fuel d.dropLast

/-- Modelled from the spec ("§4.2 BuildSystemDetector"): detection returns
the first visited ancestor directory holding any marker, using the priority
order only inside a single directory. -/
def detect_spec (fs : FS) (test_file : FsPath) : Option BuildSystemInfo :=
  (ancestorChain test_file.dropLast.length test_file.dropLast).findSome? (marker_in fs)

/-- `TestResult` from test_result.py (message defaults to `""`). -/
structure TestResult where
  name : String
  passed : Bool
  message : String := ""
deriving DecidableEq

/-- `TestCodeGenerator.generate_test_program`, text part: the full-file
runner program, a pure function of the test file's stem, the module name and
the subroutine list. -/
def generate_test_program_text (stem test_module_name : String)
    (test_subroutines : List String) : String :=
  "program run_" ++ stem ++ "\n" ++
  "    use " ++ ASSERTION_MODULE ++ "\n" ++
  "    use " ++ test_module_name ++ "\n" ++
  "    implicit none\n" ++
  String.join (test_subroutines.map fun test_sub => "    call " ++ test_sub ++ "()\n") ++
  "    call print_summary()\n" ++
  "end program run_" ++ stem ++ "\n"

/-- `TestCodeGenerator.generate_single_test_program`, text part: the
single-test runner program. -/
def generate_single_test_program_text (test_module_name test_subroutine : String) : String :=
  "program run_" ++ test_subroutine ++ "\n" ++
  "    use " ++ ASSERTION_MODULE ++ "\n" ++
  "    use " ++ test_module_name ++ "\n" ++
  "    implicit none\n" ++
  "    call " ++ test_subroutine ++ "()\n" ++
  "end program run_" ++ test_subroutine ++ "\n"

/-- `TestCodeGenerator.generate_error_stop_test_program`, text part: the
abort-expected runner program (no assertion helper). -/
def generate_error_stop_test_program_text (test_module_name test_subroutine : String) :
    String :=
  "program run_" ++ test_subroutine ++ "\n" ++
  "    use " ++ test_module_name ++ "\n" ++
  "    implicit none\n" ++
  "    call " ++ test_subroutine ++ "()\n" ++
  "end program run_" ++ test_subroutine ++ "\n"

/-- Outcome of spawning a test executable under `subprocess.run(...,
timeout=30)`: it completed with captured stdout and an exit code, raised
`subprocess.TimeoutExpired`, or raised some other exception. -/
inductive ExecOutcome
  | completed (stdout : String) (returncode : Int)
  | timedOut
  | spawnError (msg : String)

/-- `FortranTestRunner.run_test_executable`: the `(success, output,
returncode)` triple; a timeout yields `(False, "Test timed out", -1)`. -/
def run_test_executable : ExecOutcome → Bool × String × Int
  | .completed stdout returncode => (true, stdout, returncode)
  | .timedOut => (false, "Test timed out", -1)
  | .spawnError msg => (false, msg, -1)

/-- Prefix of every error_stop result name in `check_error_stop_test`:
`f"{test_file.name} (error_stop expected)"`. -/
def errorStopName (test_file_name : String) : String :=
  test_file_name ++ " (error_stop expected)"

/-- The execution-classification part of
`FortranTestRunner.check_error_stop_test` (the file-level error_stop path):
a non-zero return code passes only when it equals 2 or the output contains
"error stop" case-insensitively; zero is the completed-normally failure. -/
def check_error_stop_classify (test_file_name : String) (outcome : ExecOutcome) :
    TestResult :=
  let r := run_test_executable outcome
  let output := r.2.1
  let returncode := r.2.2
  if returncode ≠ 0 then
    if returncode = 2 ∨
        hasSubstr (strUpper output).data "ERROR STOP".data = true ∨
        hasSubstr (strLower output).data "error stop".data = true then
      { name := errorStopName test_file_name, passed := true,
        message := "Correctly triggered error stop" }
    else
      { name := errorStopName test_file_name, passed := false,
        message := "Unexpected error (exit code " ++ toString returncode ++ "): " ++ output }
  else
    { name := errorStopName test_file_name, passed := false,
      message := "Expected error stop but test completed normally" }

/-- `FortranTestRunner._execute_and_check_error_stop` (the per-subroutine
error_stop path): the success flag and output of `run_test_executable` are
discarded; any non-zero `returncode` — including the `-1` produced for a
timeout — is classified as a pass. -/
def execute_and_check_error_stop (test_subroutine : String) (outcome : ExecOutcome) :
    TestResult :=
  let r := run_test_executable outcome
  let returncode := r.2.2
  if returncode ≠ 0 then
    { name := test_subroutine, passed := true,
      message := "Correctly triggered error stop (exit code " ++ toString returncode ++ ")" }
  else
    { name := test_subroutine, passed := false,
      message := "Expected error stop but test completed normally" }

/-- `FortranTestRunner._handle_no_test_results`. -/
def handle_no_test_results (test_subroutine : String) (returncode : Int) : TestResult :=
  if returncode ≠ 0 then
    { name := test_subroutine, passed := false,
      message := "Error stop or abnormal termination (exit code " ++ toString returncode ++ ")" }
  else
    { name := test_subroutine, passed := true }

/-- `FortranTestRunner._execute_normal_test`, abstracted over the output
parser (`parse_test_output` lives in the formatter component): a run whose
success flag is false — in particular a timeout — fails immediately with the
captured message. -/
def execute_normal_test (parse : String → List TestResult) (test_subroutine : String)
    (outcome : ExecOutcome) : TestResult :=
  let r := run_test_executable outcome
  let success := r.1
  let output := r.2.1
  let returncode := r.2.2
  if success = false then
    { name := test_subroutine, passed := false,
      message := "Test execution failed: " ++ output }
  else
    match parse output with
    | [] => handle_no_test_results test_subroutine returncode
    | result :: _ => result

/-- Builds a concrete `FS` from a directory list and a file list (paths with
readable contents).  `children` lists subdirectories first, then files, each
in the order given — this fixes the `iterdir` iteration order. -/
def mkFS (dirs : List FsPath) (files : List (FsPath × String)) (cwd pkgDir : FsPath) : FS :=
  { isFile := fun p => files.any fun e => e.1 == p
    isDir := fun p => dirs.any fun d => d == p
    children := fun p =>
      (dirs.filterMap fun d => if d.dropLast = p ∧ d ≠ [] then some d.getLast! else none) ++
      (files.filterMap fun e =>
        if e.1.dropLast = p ∧ e.1 ≠ [] then some e.1.getLast! else none)
    read := fun p => (files.find? fun e => e.1 == p).map fun e => e.2
    cwd := cwd
    pkgDir := pkgDir }

/-- Acyclic chain scenario of C1: `a.f90` uses `b_mod`, `b.f90` defines
`b_mod` and uses `c_mod`, `c.f90` defines `c_mod`. -/
def c1A : FsPath := ["p", "a.f90"]

/-- B's file in the C1 chain. -/
def c1B : FsPath := ["p", "b.f90"]

/-- C's file in the C1 chain. -/
def c1C : FsPath := ["p", "c.f90"]

/-- The C1 chain filesystem. -/
def fsC1 : FS :=
  mkFS [[], ["p"]]
    [(c1A, "module a_mod\n    use b_mod\nend module a_mod\n"),
     (c1B, "module b_mod\n    use c_mod\nend module b_mod\n"),
     (c1C, "module c_mod\nend module c_mod\n")]
    ["p"] ["pkg"]

/-- Cyclic pair scenario of C8: `a.f90` uses `b_mod`, `b.f90` uses `a_mod`. -/
def c8A : FsPath := ["p", "a.f90"]

/-- B's file in the C8 cycle. -/
def c8B : FsPath := ["p", "b.f90"]

/-- The C8 cyclic filesystem. -/
def fsC8 : FS :=
  mkFS [[], ["p"]]
    [(c8A, "module a_mod\n    use b_mod\nend module a_mod\n"),
     (c8B, "module b_mod\n    use a_mod\nend module b_mod\n")]
    ["p"] ["pkg"]

/-- C10 counterexample scenario: the test file itself is named like the
bundled assertion file and references the assertion module, so the
filename-based assertion lookup returns the test file itself. -/
def c10T : FsPath := ["q", "module_fortest_assertions.f90"]

/-- The C10 counterexample filesystem. -/
def fsC10x : FS :=
  mkFS [[], ["q"]]
    [(c10T, "module foo\n    use fortest_assertions\nend module foo\n")]
    ["q"] ["pkg"]

/-- C10 witness scenario, test file: references the assertion module and one
user module. -/
def c10wT : FsPath := ["w", "test_x.f90"]

/-- C10 witness scenario, user-module file defining `m1_mod`. -/
def c10wM : FsPath := ["w", "m1.f90"]

/-- C10 witness scenario, the project's assertion-module file. -/
def c10wA : FsPath := ["w", "module_fortest_assertions.f90"]

/-- The C10 witness filesystem. -/
def fsC10w : FS :=
  mkFS [[], ["w"]]
    [(c10wT,
      "module test_x_mod\n    use fortest_assertions\n    use m1_mod\nend module test_x_mod\n"),
     (c10wM, "module m1_mod\nend module m1_mod\n"),
     (c10wA, "module fortest_assertions\nend module fortest_assertions\n")]
    ["w"] ["pkg"]

/-- A filesystem on which every read fails (`OSError`/`UnicodeDecodeError`),
for the scan-error claims. -/
def fsC4 : FS :=
  { isFile := fun _ => false, isDir := fun _ => false, children := fun _ => []
    read := fun _ => none, cwd := [], pkgDir := [] }

/-- C5 witness scenario: the test file's directory `proj` holds both an FPM
marker and a CMake marker. -/
def c5T : FsPath := ["proj", "test_y.f90"]

/-- The C5 witness filesystem. -/
def fsC5 : FS :=
  mkFS [[], ["proj"]]
    [(["proj", "fpm.toml"], ""), (["proj", "CMakeLists.txt"], "")]
    [] []

/-- Concrete source text for the C6 trailing-comment scenario: the only
`use` of `hidden_mod` sits behind a comment marker. -/
def c6ExampleText : String := "  x = 1 ! use hidden_mod\n  use real_mod\n"

/-- Concrete source text for the C7 scenario: one test-subroutine
declaration, its closing `end subroutine` line, and a commented-out
declaration. -/
def c7ExampleText : String :=
  "subroutine test_add()\n    call assert_equal(1, 1)\nend subroutine test_add\n! subroutine test_ghost()\n"

theorem stripCommentsGo_no_bang (cs : List Char) : ∀ b, '!' ∉ stripCommentsGo cs b := by
  induction cs with
  | nil => intro b; simp [stripCommentsGo]
  | cons c cs ih =>
    intro b
    simp only [stripCommentsGo]
    split_ifs with h1 h2 h3
    · intro hmem
      rcases List.mem_cons.mp hmem with h | h
      · rw [h1] at h; exact absurd h (by decide)
      · exact ih false h
    · exact ih true
    · exact ih true
    · intro hmem
      rcases List.mem_cons.mp hmem with h | h
      · exact h3 h.symm
      · exact ih false h

theorem stripCommentsGo_of_no_bang (cs : List Char) (h : '!' ∉ cs) :
    stripCommentsGo cs false = cs := by
  induction cs with
  | nil => rfl
  | cons c cs ih =>
    have hc : c ≠ '!' := fun hc => h (hc ▸ List.mem_cons_self c cs)
    have hcs : '!' ∉ cs := fun hm => h (List.mem_cons_of_mem c hm)
    simp only [stripCommentsGo]
    rw [if_neg (show ¬(false = true) by simp)]
    split_ifs with h1 <;> rw [ih hcs]

theorem stripComments_idem (s : String) : stripComments (stripComments s) = stripComments s := by
  unfold stripComments
  exact congrArg String.mk
    (stripCommentsGo_of_no_bang _ (stripCommentsGo_no_bang s.data false))

theorem dedupLowerLoop_spec (ms : List String) :
    ∀ seen acc : List String,
      ∃ t, dedupLowerLoop seen acc ms = acc ++ t ∧
        t.Sublist (ms.map strLower) ∧
        (∀ a ∈ t, a ∉ seen) ∧
        t.Nodup ∧
        (∀ a ∈ ms.map strLower, a ∉ seen → a ∈ acc ++ t) := by
  induction ms with
  | nil =>
    intro seen acc
    exact ⟨[], by simp [dedupLowerLoop], by simp, by simp, by simp, by simp⟩
  | cons m ms ih =>
    intro seen acc
    by_cases hseen : strLower m ∈ seen
    · obtain ⟨t, heq, hsub, hnotin, hnd, hcomp⟩ := ih seen acc
      refine ⟨t, ?_, ?_, hnotin, hnd, ?_⟩
      · simpa [dedupLowerLoop, hseen] using heq
      · exact hsub.trans (by simp [List.map_cons, List.sublist_cons_self])
      · intro a ha hna
        rw [List.map_cons] at ha
        rcases List.mem_cons.mp ha with h | h
        · exact absurd (h ▸ hseen) hna
        · exact hcomp a h hna
    · obtain ⟨t, heq, hsub, hnotin, hnd, hcomp⟩ := ih (strLower m :: seen) (acc ++ [strLower m])
      refine ⟨strLower m :: t, ?_, ?_, ?_, ?_, ?_⟩
      · simp only [dedupLowerLoop, if_neg hseen]
        rw [heq, List.append_assoc]
        rfl
      · rw [List.map_cons]
        exact List.Sublist.cons₂ (strLower m) hsub
      · intro a ha
        rcases List.mem_cons.mp ha with h | h
        · exact h ▸ hseen
        · exact fun hs => hnotin a h (List.mem_cons_of_mem _ hs)
      · refine List.nodup_cons.mpr ⟨?_, hnd⟩
        exact fun hmem => hnotin _ hmem (List.mem_cons_self _ _)
      · intro a ha hna
        rw [List.map_cons] at ha
        rcases List.mem_cons.mp ha with h | h
        · simp [h]
        · by_cases ham : a = strLower m
          · simp [ham]
          · have := hcomp a h (by simp [ham, hna])
            rw [List.append_assoc] at this
            simpa using this

theorem matchLit_spec (ps : List Char) :
    ∀ cs rest : List Char, matchLit ps cs = some rest →
      ∃ pre, cs = pre ++ rest ∧ pre.map Char.toLower = ps ∧ pre.length = ps.length := by
  induction ps with
  | nil =>
    intro cs rest h
    simp only [matchLit, Option.some.injEq] at h
    exact ⟨[], by simp [h], rfl, rfl⟩
  | cons p ps ih =>
    intro cs rest h
    cases cs with
    | nil => simp [matchLit] at h
    | cons c cs =>
      simp only [matchLit] at h
      split_ifs at h with hc
      obtain ⟨pre, hpre, hmap, hlen⟩ := ih cs rest h
      exact ⟨c :: pre, by simp [hpre], by simp [hmap, hc], by simp [hlen]⟩

theorem scanMatches_all (tryFn : List Char → Option (String × List Char)) (P : String → Prop)
    (hP : ∀ cs w rest, tryFn cs = some (w, rest) → P w) :
    ∀ (fuel : Nat) (cs : List Char) (b : Bool), ∀ w ∈ scanMatches tryFn fuel cs b, P w := by
  intro fuel
  induction fuel with
  | zero => intro cs b w hw; simp [scanMatches] at hw
  | succ n ih =>
    intro cs b w hw
    match cs with
    | [] => simp [scanMatches] at hw
    | c :: rest =>
      simp only [scanMatches] at hw
      by_cases hb : b
      · rw [if_pos hb] at hw
        cases htry : tryFn (c :: rest) with
        | none => rw [htry] at hw; exact ih rest (c = '\n') w hw
        | some pr =>
          rw [htry] at hw
          rcases List.mem_cons.mp hw with h | h
          · exact h ▸ hP _ pr.1 pr.2 (by rw [htry])
          · exact ih pr.2 false w h
      · rw [if_neg hb] at hw
        exact ih rest (c = '\n') w hw

theorem trySubMatch_shape (cs : List Char) (w : String) (rest : List Char)
    (h : trySubMatch cs = some (w, rest)) :
    ∃ t, (strLower w).data = 't' :: 'e' :: 's' :: 't' :: '_' :: t := by
  unfold trySubMatch at h
  try dsimp only at h
  cases h1 : matchLit "subroutine".data (cs.dropWhile isSpaceChar) with
  | none => rw [h1] at h; exact absurd h (by simp)
  | some cs2 =>
    rw [h1] at h
    cases cs2 with
    | nil => exact absurd h (by simp)
    | cons c cs2t =>
      try dsimp only at h
      by_cases hsp : isSpaceChar c = true
      case neg => rw [if_neg hsp] at h; exact absurd h (by simp)
      rw [if_pos hsp] at h
      try dsimp only at h
      cases h2 : matchLit "test_".data ((c :: cs2t).dropWhile isSpaceChar) with
      | none => rw [h2] at h; exact absurd h (by simp)
      | some cs4 =>
        rw [h2] at h
        try dsimp only at h
        by_cases hemp : (cs4.takeWhile isWordChar).isEmpty = true
        case pos => rw [if_pos hemp] at h; exact absurd h (by simp)
        rw [if_neg hemp] at h
        simp only [Option.some.injEq, Prod.mk.injEq] at h
        obtain ⟨pre, hpre, hmap, hlen⟩ := matchLit_spec _ _ _ h2
        have htake : ((c :: cs2t).dropWhile isSpaceChar).take 5 = pre := by
          rw [hpre, List.take_append_of_le_length (by rw [hlen]; decide),
            List.take_of_length_le (by rw [hlen]; decide)]
        refine ⟨(cs4.takeWhile isWordChar).map Char.toLower, ?_⟩
        rw [← h.1]
        show (List.take 5 ((c :: cs2t).dropWhile isSpaceChar) ++
          cs4.takeWhile isWordChar).map Char.toLower = _
        rw [htake, List.map_append, hmap]
        rfl

theorem findUserModulesGo_spec (fs : FS) (dirs : List FsPath) (tf : FsPath)
    (used : List String) :
    ∀ acc : List FsPath, tf ∉ acc → acc.Nodup →
      ∃ add, findUserModulesGo fs dirs tf acc used = acc ++ add ∧
        tf ∉ add ∧ (acc ++ add).Nodup ∧
        ∀ f ∈ add, ∃ n, n ∈ used ∧ n ∉ INTRINSIC_MODULES ∧ n ≠ ASSERTION_MODULE ∧
          find_module_file_by_name fs n dirs = some f := by
  induction used with
  | nil =>
    intro acc h1 h2
    exact ⟨[], by simp [findUserModulesGo], by simp, by simpa using h2, by simp⟩
  | cons nm rest ih =>
    intro acc h1 h2
    by_cases hskip : nm ∈ INTRINSIC_MODULES ∨ nm = ASSERTION_MODULE
    · obtain ⟨add, heq, ha, hb, hc⟩ := ih acc h1 h2
      refine ⟨add, by simpa [findUserModulesGo, hskip] using heq, ha, hb, ?_⟩
      intro f hf
      obtain ⟨n, hn1, hn2, hn3, hn4⟩ := hc f hf
      exact ⟨n, List.mem_cons_of_mem _ hn1, hn2, hn3, hn4⟩
    · cases hfind : find_module_file_by_name fs nm dirs with
      | none =>
        obtain ⟨add, heq, ha, hb, hc⟩ := ih acc h1 h2
        refine ⟨add, by simpa [findUserModulesGo, hskip, hfind] using heq, ha, hb, ?_⟩
        intro f hf
        obtain ⟨n, hn1, hn2, hn3, hn4⟩ := hc f hf
        exact ⟨n, List.mem_cons_of_mem _ hn1, hn2, hn3, hn4⟩
      | some mf =>
        by_cases hdup : mf = tf ∨ mf ∈ acc
        · obtain ⟨add, heq, ha, hb, hc⟩ := ih acc h1 h2
          refine ⟨add, by simpa [findUserModulesGo, hskip, hfind, hdup] using heq, ha, hb, ?_⟩
          intro f hf
          obtain ⟨n, hn1, hn2, hn3, hn4⟩ := hc f hf
          exact ⟨n, List.mem_cons_of_mem _ hn1, hn2, hn3, hn4⟩
        · push_neg at hdup
          have h1' : tf ∉ acc ++ [mf] := by
            simp only [List.mem_append, List.mem_singleton]
            rintro (h | h)
            · exact h1 h
            · exact hdup.1 h.symm
          have h2' : (acc ++ [mf]).Nodup := by
            rw [List.nodup_append]
            exact ⟨h2, List.nodup_singleton mf, by simpa using fun h => hdup.2 h⟩
          obtain ⟨add, heq, ha, hb, hc⟩ := ih (acc ++ [mf]) h1' h2'
          refine ⟨mf :: add, ?_, ?_, ?_, ?_⟩
          · simp only [findUserModulesGo, if_neg hskip, hfind]
            rw [if_neg (by push_neg; exact hdup), heq, List.append_assoc]
            rfl
          · simp only [List.mem_cons]
            rintro (h | h)
            · exact hdup.1 h.symm
            · exact ha h
          · have : acc ++ mf :: add = (acc ++ [mf]) ++ add := by
              rw [List.append_assoc]; rfl
            rw [this]
            exact hb
          · intro f hf
            rcases List.mem_cons.mp hf with h | h
            · exact ⟨nm, List.mem_cons_self _ _, fun hi => hskip (Or.inl hi),
                fun he => hskip (Or.inr he), h ▸ hfind⟩
            · obtain ⟨n, hn1, hn2, hn3, hn4⟩ := hc f h
              exact ⟨n, List.mem_cons_of_mem _ hn1, hn2, hn3, hn4⟩

theorem detectGo_succ (fs : FS) (n : Nat) (d : FsPath) (hd : d ≠ []) :
    detectGo fs (n + 1) d =
      (match marker_in fs d with
       | some b => some b
       | none => detectGo fs n d.dropLast) := by
  simp only [detectGo, marker_in, if_neg hd]
  split_ifs <;> rfl

theorem detectGo_eq_findSome (fs : FS) :
    ∀ (fuel : Nat) (d : FsPath),
      detectGo fs fuel d = (ancestorChain fuel d).findSome? (marker_in fs) := by
  intro fuel
  induction fuel with
  | zero => intro d; rfl
  | succ n ih =>
    intro d
    by_cases hd : d = []
    · simp [detectGo, ancestorChain, hd, List.findSome?]
    · rw [detectGo_succ fs n d hd,
        show ancestorChain (n + 1) d = d :: ancestorChain n d.dropLast from by
          simp [ancestorChain, hd],
        List.findSome?_cons]
      cases hm : marker_in fs d <;> simp [hm, ih]

/-- C1, counterexample: on the concrete acyclic chain a→b→c,
`find_module_files` of A's file does not return `[C, B, A]`; the transitive
dependency C's file and the input file A itself are both absent, because
`_find_user_modules` resolves only the names used directly by the input file
and never recurses into the resolved files. -/
theorem c1_counterexample :
    find_module_files fsC1 c1A true ≠ [c1C, c1B, c1A] ∧
    c1C ∉ find_module_files fsC1 c1A true ∧
    c1A ∉ find_module_files fsC1 c1A true := by decide

/-- C1, amended: dependency resolution returns only the files of the modules
named directly in the input file's own use statements, excluding the input
file itself; it does not recurse, so on the chain a→b→c resolving A yields
just `[B]`, and the same direct-only rule applied to B yields `[C]`. -/
theorem c1_amended :
    find_module_files fsC1 c1A true = [c1B] ∧
    extract_use_statements fsC1 c1A = ["b_mod"] ∧
    extract_use_statements fsC1 c1B = ["c_mod"] ∧
    find_module_files fsC1 c1B true = [c1C] := by decide

/-- C2, counterexample: in `check_error_stop_test` (the file-level
abort-expected path) a completed run with exit code 1 and no "error stop"
text in its output is classified as a failure even though its exit code is
non-zero, refuting "any non-zero value accepted". -/
theorem c2_counterexample :
    (1 : Int) ≠ 0 ∧
    (check_error_stop_classify "test_error_stop_div.f90"
      (ExecOutcome.completed "" 1)).passed = false := by decide

/-- C2, amended: for completed runs, `_execute_and_check_error_stop` (the
per-subroutine abort-expected path) passes exactly on a non-zero exit code,
while `check_error_stop_test` passes a non-zero exit only when the code is 2
or the captured output contains "error stop" case-insensitively; exit code
zero is always a failure with the completed-normally message in both. -/
theorem c2_amended (out : String) (rc : Int) (nm fname : String) :
    ((execute_and_check_error_stop nm (ExecOutcome.completed out rc)).passed = true ↔
      rc ≠ 0) ∧
    ((check_error_stop_classify fname (ExecOutcome.completed out rc)).passed = true ↔
      (rc ≠ 0 ∧ (rc = 2 ∨ hasSubstr (strUpper out).data "ERROR STOP".data = true ∨
        hasSubstr (strLower out).data "error stop".data = true))) ∧
    (rc = 0 →
      (execute_and_check_error_stop nm (ExecOutcome.completed out rc)).message =
        "Expected error stop but test completed normally" ∧
      (check_error_stop_classify fname (ExecOutcome.completed out rc)).message =
        "Expected error stop but test completed normally") := by
  refine ⟨?_, ?_, ?_⟩
  · unfold execute_and_check_error_stop run_test_executable
    by_cases h : rc = 0 <;> simp [h]
  · unfold check_error_stop_classify run_test_executable
    by_cases h : rc = 0
    · simp [h]
    · by_cases h2 : rc = 2 ∨ hasSubstr (strUpper out).data "ERROR STOP".data = true ∨
        hasSubstr (strLower out).data "error stop".data = true
      · simp [h, h2]
      · simp [h, h2]
  · intro h
    subst h
    unfold execute_and_check_error_stop check_error_stop_classify run_test_executable
    simp

/-- C2, witness for the amended statement at exit code 0. -/
theorem c2_amended_witness :
    (execute_and_check_error_stop "test_error_stop_div"
      (ExecOutcome.completed "" 0)).message =
      "Expected error stop but test completed normally" ∧
    (check_error_stop_classify "test_error_stop_div.f90"
      (ExecOutcome.completed "" 0)).message =
      "Expected error stop but test completed normally" :=
  (c2_amended "" 0 "test_error_stop_div" "test_error_stop_div.f90").2.2 rfl

/-- C3: a timed-out run yields the triple `(False, "Test timed out", -1)`;
the normal-test path turns this into a failure with the distinct timeout
message, but `_execute_and_check_error_stop` discards the success flag and
classifies the sentinel `-1` as a passing non-zero exit — a timed-out
abort-expected run is reported as "Correctly triggered error stop", contrary
to the claim (and to the runner's own timeout signalling). -/
theorem c3_timeout_classification :
    run_test_executable ExecOutcome.timedOut = (false, "Test timed out", -1) ∧
    (∀ (parse : String → List TestResult) (nm : String),
      execute_normal_test parse nm ExecOutcome.timedOut =
        { name := nm, passed := false,
          message := "Test execution failed: Test timed out" }) ∧
    execute_and_check_error_stop "test_error_stop_div" ExecOutcome.timedOut =
      { name := "test_error_stop_div", passed := true,
        message := "Correctly triggered error stop (exit code -1)" } := by
  refine ⟨rfl, fun parse nm => rfl, by decide⟩

/-- C4: when a read fails, the resolver's two scanners recover locally —
`extract_use_statements` returns `[]` and `extract_module_name` returns
`none` — but `extract_test_subroutines` has no handler around `open`/`read`
and propagates the error instead of returning an empty list, contrary to the
claim that every scanning operation returns an empty result and never
raises. -/
theorem c4_scan_error_behavior (fs : FS) (f : FsPath) (h : fs.read f = none) :
    extract_use_statements fs f = [] ∧
    extract_module_name fs f = none ∧
    extract_test_subroutines fs f = Except.error ScanError.readFailure ∧
    ∀ names, extract_test_subroutines fs f ≠ Except.ok names := by
  refine ⟨?_, ?_, ?_, ?_⟩ <;>
    simp [extract_use_statements, extract_module_name, extract_test_subroutines, h]

/-- C4, witness: the behavior at a concrete unreadable file. -/
theorem c4_witness :
    extract_use_statements fsC4 ["missing.f90"] = [] ∧
    extract_module_name fsC4 ["missing.f90"] = none ∧
    extract_test_subroutines fsC4 ["missing.f90"] = Except.error ScanError.readFailure ∧
    ∀ names, extract_test_subroutines fsC4 ["missing.f90"] ≠ Except.ok names :=
  c4_scan_error_behavior fsC4 ["missing.f90"] rfl

/-- C5: build-system detection equals its specification — the first
directory of the upward walk (which stops at the filesystem root) holding
any marker, with FPM over CMake over Make decided only within a single
directory; in particular a directory with an FPM marker (a coexisting CMake
marker included) is reported as FPM, and a walk meeting no marker reports
nothing. -/
theorem c5_build_system_detection (fs : FS) (test_file : FsPath) :
    detect fs test_file = detect_spec fs test_file ∧
    (test_file.dropLast ≠ [] → fs.pexists (test_file.dropLast ++ ["fpm.toml"]) = true →
      detect fs test_file = some ⟨"fpm", test_file.dropLast⟩) ∧
    ((∀ d ∈ ancestorChain test_file.dropLast.length test_file.dropLast,
        marker_in fs d = none) →
      detect fs test_file = none) := by
  refine ⟨detectGo_eq_findSome fs _ _, ?_, ?_⟩
  · intro hd hf
    unfold detect
    cases hl : test_file.dropLast.length with
    | zero => exact absurd (List.length_eq_zero.mp hl) hd
    | succ n => simp [detectGo, hd, hf]
  · intro hall
    unfold detect
    rw [detectGo_eq_findSome]
    exact List.findSome?_eq_none_iff.mpr hall

/-- C5, witness: a directory holding both an FPM marker and a CMake marker
is reported as FPM, and detection agrees with its specification there. -/
theorem c5_witness :
    detect fsC5 c5T = some ⟨"fpm", ["proj"]⟩ ∧ detect fsC5 c5T = detect_spec fsC5 c5T := by
  have h := c5_build_system_detection fsC5 c5T
  exact ⟨h.2.1 (by decide) (by decide), h.1⟩

/-- C6: extracted use-statement names are pairwise distinct (already
lowered, so case-insensitively unique), form a sublist of the lowered raw
match sequence (first-occurrence order preserved), contain exactly the
lowered raw matches (nothing invented or dropped), and are invariant under
comment stripping, so a `use` sitting behind a `!` marker is never
extracted — as the concrete trailing-comment scenario shows. -/
theorem c6_use_extraction (c : String) :
    (extract_use_statements_text c).Nodup ∧
    (extract_use_statements_text c).Sublist ((rawUseMatches c).map strLower) ∧
    (∀ a, a ∈ extract_use_statements_text c ↔ a ∈ (rawUseMatches c).map strLower) ∧
    extract_use_statements_text (stripComments c) = extract_use_statements_text c ∧
    extract_use_statements_text c6ExampleText = ["real_mod"] := by
  obtain ⟨t, heq, hsub, hseen, hnd, hcomp⟩ := dedupLowerLoop_spec (rawUseMatches c) [] []
  have he : extract_use_statements_text c = t := by
    simpa [extract_use_statements_text] using heq
  refine ⟨?_, ?_, ?_, ?_, by decide⟩
  · rw [he]; exact hnd
  · rw [he]; exact hsub
  · intro a
    rw [he]
    constructor
    · exact fun ha => hsub.subset ha
    · intro ha
      simpa using hcomp a ha (by simp)
  · have hraw : rawUseMatches (stripComments c) = rawUseMatches c := by
      simp only [rawUseMatches, stripComments_idem]
    unfold extract_use_statements_text
    rw [hraw]

/-- C7: extracted test-subroutine names are pairwise distinct (so a name is
extracted at most once even when its closing `end subroutine` line repeats
it), every extracted name starts with the `test_` prefix (so only
declaration lines whose subroutine identifier carries the prefix match),
and extraction is invariant under comment stripping (commented-out
declarations never extracted) — as the concrete scenario with a
declaration, its closing line and a commented declaration shows. -/
theorem c7_test_subroutine_extraction (c : String) :
    (extract_test_subroutines_text c).Nodup ∧
    (∀ n, n ∈ extract_test_subroutines_text c →
      ∃ u, n.data = 't' :: 'e' :: 's' :: 't' :: '_' :: u) ∧
    extract_test_subroutines_text (stripComments c) = extract_test_subroutines_text c ∧
    extract_test_subroutines_text c7ExampleText = ["test_add"] := by
  obtain ⟨t, heq, hsub, hseen, hnd, hcomp⟩ := dedupLowerLoop_spec (rawSubMatches c) [] []
  have he : extract_test_subroutines_text c = t := by
    simpa [extract_test_subroutines_text] using heq
  refine ⟨?_, ?_, ?_, by decide⟩
  · rw [he]; exact hnd
  · intro n hn
    rw [he] at hn
    have hmem := hsub.subset hn
    rw [List.mem_map] at hmem
    obtain ⟨m, hm, hlow⟩ := hmem
    have hm2 : m ∈ scanMatches trySubMatch (stripComments c).data.length
        (stripComments c).data true := by
      simpa [rawSubMatches] using hm
    obtain ⟨u, hu⟩ := scanMatches_all trySubMatch
      (fun w => ∃ u, (strLower w).data = 't' :: 'e' :: 's' :: 't' :: '_' :: u)
      trySubMatch_shape _ _ _ m hm2
    exact ⟨u, by rw [← hlow]; exact hu⟩
  · have hraw : rawSubMatches (stripComments c) = rawSubMatches c := by
      simp only [rawSubMatches, stripComments_idem]
    unfold extract_test_subroutines_text
    rw [hraw]

/-- C7, witness: the prefix property instantiated at the concrete scenario's
extracted name. -/
theorem c7_witness :
    "test_add" ∈ extract_test_subroutines_text c7ExampleText ∧
    ∃ u, ("test_add" : String).data = 't' :: 'e' :: 's' :: 't' :: '_' :: u := by
  have h := (c7_test_subroutine_extraction c7ExampleText).2.1 "test_add" (by decide)
  exact ⟨by decide, h⟩

/-- C8, counterexample: on the concrete cyclic pair a↔b, resolving A's file
returns only B's file — A's own file appears zero times, not exactly once,
because `_find_user_modules` always excludes the input file itself. -/
theorem c8_counterexample :
    c8A ∉ find_module_files fsC8 c8A true ∧
    find_module_files fsC8 c8A true = [c8B] := by decide

/-- C8, amended: on a cyclic pair a↔b the resolver terminates trivially —
it performs a single non-recursive pass over the input file's direct use
names — and returns the *other* participant exactly once, the input file
itself being excluded; symmetrically from either side. -/
theorem c8_amended :
    find_module_files fsC8 c8A true = [c8B] ∧
    (find_module_files fsC8 c8A true).count c8B = 1 ∧
    find_module_files fsC8 c8B true = [c8A] ∧
    (find_module_files fsC8 c8B true).count c8A = 1 := by decide

/-- C9: each driver-generation template is a pure function of its arguments
— the full-file runner of (file stem, module name, subroutine list), the
single-test and abort-expected runners of (module name, subroutine name) —
so two invocations on identical arguments produce byte-identical text. -/
theorem c9_driver_generation_deterministic
    (stem1 stem2 mod1 mod2 : String) (subs1 subs2 : List String)
    (sub1 sub2 esub1 esub2 : String)
    (hstem : stem1 = stem2) (hmod : mod1 = mod2) (hsubs : subs1 = subs2)
    (hsub : sub1 = sub2) (hesub : esub1 = esub2) :
    generate_test_program_text stem1 mod1 subs1 =
      generate_test_program_text stem2 mod2 subs2 ∧
    generate_single_test_program_text mod1 sub1 =
      generate_single_test_program_text mod2 sub2 ∧
    generate_error_stop_test_program_text mod1 esub1 =
      generate_error_stop_test_program_text mod2 esub2 := by
  subst hstem hmod hsubs hsub hesub
  exact ⟨rfl, rfl, rfl⟩

/-- C9, witness: determinism at concrete arguments. -/
theorem c9_witness :
    generate_test_program_text "test_calc" "test_calc_mod" ["test_a", "test_b"] =
      generate_test_program_text "test_calc" "test_calc_mod" ["test_a", "test_b"] ∧
    generate_single_test_program_text "test_calc_mod" "test_a" =
      generate_single_test_program_text "test_calc_mod" "test_a" ∧
    generate_error_stop_test_program_text "test_calc_mod" "test_error_stop_div" =
      generate_error_stop_test_program_text "test_calc_mod" "test_error_stop_div" :=
  c9_driver_generation_deterministic "test_calc" "test_calc" "test_calc_mod"
    "test_calc_mod" ["test_a", "test_b"] ["test_a", "test_b"] "test_a" "test_a"
    "test_error_stop_div" "test_error_stop_div" rfl rfl rfl rfl rfl

/-- C10, counterexample: when the test file itself is named like the bundled
assertion file and references the assertion module, the filename-based
assertion lookup returns the test file, so the returned list *does* contain
the test file itself — refuting the claim's "never contains the test file"
conjunct for the full list. -/
theorem c10_counterexample :
    c10T ∈ find_module_files fsC10x c10T true ∧
    find_module_files fsC10x c10T true = [c10T] := by decide

/-- C10, amended: the returned list decomposes as the assertion phase
followed by the user-module files; the user-module portion never contains
the test file, never contains a duplicate, and every entry was resolved for
a directly-used, non-intrinsic, non-assertion module name; when an
assertion file is found (assertions requested and referenced) it is the
first element, preceding every user-module file.  The guarantees do not
extend to the assertion entry itself, which is located by file name alone
(see the counterexample). -/
theorem c10_amended (fs : FS) (test_file : FsPath) (include_assertions : Bool) :
    (find_module_files fs test_file include_assertions =
      assertion_part fs (extract_use_statements fs test_file)
        (build_search_directories fs test_file) include_assertions ++
      find_user_modules fs (extract_use_statements fs test_file)
        (build_search_directories fs test_file) test_file) ∧
    (find_user_modules fs (extract_use_statements fs test_file)
      (build_search_directories fs test_file) test_file).Nodup ∧
    test_file ∉ find_user_modules fs (extract_use_statements fs test_file)
      (build_search_directories fs test_file) test_file ∧
    (∀ f, f ∈ find_user_modules fs (extract_use_statements fs test_file)
        (build_search_directories fs test_file) test_file →
      ∃ n, n ∈ extract_use_statements fs test_file ∧ n ∉ INTRINSIC_MODULES ∧
        n ≠ ASSERTION_MODULE ∧
        find_module_file_by_name fs n (build_search_directories fs test_file) = some f) ∧
    (∀ af, find_assertion_module fs (build_search_directories fs test_file) = some af →
      include_assertions = true →
      ASSERTION_MODULE ∈ extract_use_statements fs test_file →
      find_module_files fs test_file include_assertions =
        af :: find_user_modules fs (extract_use_statements fs test_file)
          (build_search_directories fs test_file) test_file) := by
  obtain ⟨add, heq, ha, hb, hc⟩ :=
    findUserModulesGo_spec fs (build_search_directories fs test_file) test_file
      (extract_use_statements fs test_file) [] (by simp) (by simp)
  have hu : find_user_modules fs (extract_use_statements fs test_file)
      (build_search_directories fs test_file) test_file = add := by
    simpa [find_user_modules] using heq
  refine ⟨rfl, ?_, ?_, ?_, ?_⟩
  · rw [hu]; simpa using hb
  · rw [hu]; exact ha
  · intro f hf
    rw [hu] at hf
    exact hc f hf
  · intro af haf hinc hassert
    have h1 : find_module_files fs test_file include_assertions =
        assertion_part fs (extract_use_statements fs test_file)
          (build_search_directories fs test_file) include_assertions ++
        find_user_modules fs (extract_use_statements fs test_file)
          (build_search_directories fs test_file) test_file := rfl
    rw [h1]
    unfold assertion_part
    rw [if_pos ⟨hinc, hassert⟩, haf]
    rfl

/-- C10, witness: the amended guarantees instantiated on a concrete project
whose test file references the assertion helper and one user module. -/
theorem c10_witness :
    (∃ n, n ∈ extract_use_statements fsC10w c10wT ∧ n ∉ INTRINSIC_MODULES ∧
      n ≠ ASSERTION_MODULE ∧
      find_module_file_by_name fsC10w n (build_search_directories fsC10w c10wT) =
        some c10wM) ∧
    find_module_files fsC10w c10wT true = c10wA ::
      find_user_modules fsC10w (extract_use_statements fsC10w c10wT)
        (build_search_directories fsC10w c10wT) c10wT := by
  have h := c10_amended fsC10w c10wT true
  exact ⟨h.2.2.2.1 c10wM (by decide), h.2.2.2.2 c10wA (by decide) rfl (by decide)⟩

end Fortest
